import Mathlib

/- The Batteries rational-number operations are `@[irreducible]`; the concrete
runs below are evaluated by the kernel, so they are made semireducible for
this file. -/
attribute [local semireducible] Rat.add Rat.mul Rat.sub Rat.inv

/-!
# Verification of the flappy-bird neuroevolution core

A shallow embedding of the game/evolution core of the repository:

* `src/unnamed/part_001` — the `NeuralNetwork` class (topology, `predict`,
  `copy`, `mutate`, `toJSON` / `fromJSON`);
* `src/unnamed/part_000` — the game component: `createPlayerBird`,
  `createAIBirds`, `nextGeneration`, and the per-tick `update` function
  (distance/fitness accrual, AI decision, gravity, collisions, pipe
  spawning/movement and passage scoring);
* `src/src/constants/gameConfig.ts` — the numeric constants.

Modelling conventions:

* JavaScript floating-point numbers are modelled as exact rationals (`ℚ`).
* The network's activation `sigmoid(x) = 1 / (1 + exp (-x))` is transcendental,
  so the dynamic model does not evaluate it: the only use the `update` function
  makes of a bird's brain is the boolean `predict(inputs)[0] > 0.5`, and the
  step function receives that boolean from a per-bird decision oracle which is
  given exactly the 4-element sensing input vector the source builds
  (`sensingInputs`).  Quantifying over all oracles covers every brain;
  exhibiting one concrete oracle exhibits one realisable population behaviour
  (a single-hidden-node linear threshold realises the oracles used below).
  `predict` itself is modelled separately (`predictWith`), parametrised by the
  activation function, for the serialization round-trip claim.
* `Math.random()` results are modelled as oracle inputs: the spawned pipe's
  `topHeight`, the fresh weights of `new NeuralNetwork`, the per-entry
  mutation offsets of `mutate` (an offset of 0 models "not selected"), and the
  random `hsla(...)` colour string.
* A bird's `rotation` field is purely cosmetic (clamped to ±π/4, read by the
  renderer only) and is irrational-valued, so it is omitted from the model;
  no claim mentions it.
-/

namespace Flappy

/-! ## Constants (`gameConfig.ts`) -/

def GRAVITY : ℚ := 3/5
def JUMP_STRENGTH : ℚ := -8
def PIPE_SPEED : ℚ := 3
def PIPE_SPAWN_RATE : ℕ := 100
def PIPE_WIDTH : ℚ := 52
def PIPE_GAP : ℚ := 150
def BIRD_RADIUS : ℚ := 16
def GROUND_HEIGHT : ℚ := 100
def CANVAS_WIDTH : ℚ := 400
def CANVAS_HEIGHT : ℚ := 600
def AI_POPULATION : ℕ := 50

/-- The score weight in `bird.fitness = bird.distance + (bird.score * 5000)`
(literal `5000` in the source). -/
def SCORE_WEIGHT : ℚ := 5000

/-! ## The neural network (`part_001`) -/

/-- The `NeuralNetwork` class: scalar fields are exact rationals. -/
structure NeuralNetwork where
  inputNodes : ℕ
  hiddenNodes : ℕ
  outputNodes : ℕ
  weightsIH : List (List ℚ)
  weightsHO : List (List ℚ)
  biasH : List ℚ
  biasO : List ℚ
deriving DecidableEq

/-- Oracle for one draw of the constructor's randomness: the values
`Math.random() * 2 - 1` used to fill the four parameter blocks. -/
structure InitOracle where
  wIH : ℕ → ℕ → ℚ
  wHO : ℕ → ℕ → ℚ
  bH : ℕ → ℚ
  bO : ℕ → ℚ

/-- Source `new NeuralNetwork(inputNodes, hiddenNodes, outputNodes)`: builds the
parameter blocks with the constructor's random values supplied by `o`. -/
def newNetwork (o : InitOracle) (inputNodes hiddenNodes outputNodes : ℕ) :
    NeuralNetwork where
  inputNodes := inputNodes
  hiddenNodes := hiddenNodes
  outputNodes := outputNodes
  weightsIH := (List.range inputNodes).map fun i =>
    (List.range hiddenNodes).map fun j => o.wIH i j
  weightsHO := (List.range hiddenNodes).map fun j =>
    (List.range outputNodes).map fun k => o.wHO j k
  biasH := (List.range hiddenNodes).map fun j => o.bH j
  biasO := (List.range outputNodes).map fun k => o.bO k

/-- Source `predict`, parametrised by the activation function `σ` (the source's
`sigmoid` uses `Math.exp` and is transcendental; every claim about `predict`
proved below holds for an arbitrary activation, hence for the sigmoid).
Out-of-range indexing is totalised with `getD _ 0`; the source always calls
`predict` with matching dimensions. -/
def predictWith (σ : ℚ → ℚ) (nn : NeuralNetwork) (inputs : List ℚ) : List ℚ :=
  let hidden := (List.range nn.hiddenNodes).map fun j =>
    σ ((((List.range nn.inputNodes).map fun i =>
          inputs.getD i 0 * (nn.weightsIH.getD i []).getD j 0).sum) +
        nn.biasH.getD j 0)
  (List.range nn.outputNodes).map fun k =>
    σ ((((List.range nn.hiddenNodes).map fun j =>
          hidden.getD j 0 * (nn.weightsHO.getD j []).getD k 0).sum) +
        nn.biasO.getD k 0)

/-- Source `copy()`: a deep copy; on immutable values it reproduces the network. -/
def copyNetwork (nn : NeuralNetwork) : NeuralNetwork := nn

/-- Oracle for one call of `mutate`: the additive offset applied to each
scalar.  An offset of `0` models a scalar not selected for mutation; a
nonzero offset models `(Math.random() * 1.0 - 0.5)` or
`(Math.random() * 0.2 - 0.1)`. -/
structure MutOracle where
  dIH : ℕ → ℕ → ℚ
  dHO : ℕ → ℕ → ℚ
  dbH : ℕ → ℚ
  dbO : ℕ → ℚ

/-- Source `mutate(rate)`: every weight and bias independently gets an additive
offset (possibly `0`), position by position. -/
def mutateNetwork (o : MutOracle) (nn : NeuralNetwork) : NeuralNetwork where
  inputNodes := nn.inputNodes
  hiddenNodes := nn.hiddenNodes
  outputNodes := nn.outputNodes
  weightsIH := nn.weightsIH.enum.map fun p =>
    p.2.enum.map fun q => q.2 + o.dIH p.1 q.1
  weightsHO := nn.weightsHO.enum.map fun p =>
    p.2.enum.map fun q => q.2 + o.dHO p.1 q.1
  biasH := nn.biasH.enum.map fun p => p.2 + o.dbH p.1
  biasO := nn.biasO.enum.map fun p => p.2 + o.dbO p.1

/-- The plain-data record produced by `toJSON` / consumed by `fromJSON`. -/
structure NetworkData where
  inputNodes : ℕ
  hiddenNodes : ℕ
  outputNodes : ℕ
  weightsIH : List (List ℚ)
  weightsHO : List (List ℚ)
  biasH : List ℚ
  biasO : List ℚ
deriving DecidableEq

/-- Source `toJSON()`. -/
def toJSON (nn : NeuralNetwork) : NetworkData where
  inputNodes := nn.inputNodes
  hiddenNodes := nn.hiddenNodes
  outputNodes := nn.outputNodes
  weightsIH := nn.weightsIH
  weightsHO := nn.weightsHO
  biasH := nn.biasH
  biasO := nn.biasO

/-- Source `fromJSON(data)`: constructs a fresh (randomly initialised) network of the
stored dimensions, then overwrites all four parameter blocks with the stored
ones.  `o` is the constructor randomness, which is entirely overwritten. -/
def fromJSON (o : InitOracle) (d : NetworkData) : NeuralNetwork :=
  let nn := newNetwork o d.inputNodes d.hiddenNodes d.outputNodes
  { nn with
    weightsIH := d.weightsIH
    weightsHO := d.weightsHO
    biasH := d.biasH
    biasO := d.biasO }

/-! ## The dynamic game model (`part_000`, `update` and its state)

`Bird` carries the dynamic fields of the source's `AIBird` record.  The
`brain` field is not carried here: `update` reads it only through the
thresholded `predict` output, which the step function receives from the
per-bird decision oracle (see the module comment).  `rotation` (cosmetic)
and `color` (presentation; modelled for the generation functions below) are
likewise not part of the dynamics. -/

structure Bird where
  x : ℚ
  y : ℚ
  velocity : ℚ
  score : ℕ
  distance : ℚ
  fitness : ℚ
  alive : Bool
deriving DecidableEq

structure Pipe where
  x : ℚ
  topHeight : ℚ
  passed : Bool
deriving DecidableEq

structure World where
  birds : List Bird
  pipes : List Pipe
  /-- Source `lastPipeSpawnRef.current`. -/
  spawnCounter : ℕ
deriving DecidableEq

inductive GameMode where
  | player
  | ai
deriving DecidableEq

/-- Oracle for one call of `update`: per-bird jump decision (the source's
`bird.brain.predict(inputs)[0] > 0.5`, as a function of the bird's index and
of the exact 4-element input vector the source feeds to `predict`), and the
random `topHeight` used if a pipe spawns this step. -/
structure StepOracle where
  jump : ℕ → List ℚ → Bool
  spawnTop : ℚ

/-- The virtual sensing target used when no pipe qualifies
(`x = CANVAS_WIDTH`, gap centred vertically). -/
def virtualPipe : Pipe where
  x := CANVAS_WIDTH
  topHeight := CANVAS_HEIGHT / 2 - PIPE_GAP / 2
  passed := false

/-- Source `closestPipe`: the first pipe whose trailing edge is still to the right of
`refX - BIRD_RADIUS` (the reference bird's left edge), else the virtual pipe. -/
def closestPipeFor (refX : ℚ) (pipes : List Pipe) : Pipe :=
  (pipes.find? fun p => decide (p.x + PIPE_WIDTH > refX - BIRD_RADIUS)).getD
    virtualPipe

/-- The 4-element sensing input vector (source lines building `inputs`). -/
def sensingInputs (b : Bird) (cp : Pipe) : List ℚ :=
  let gapCenterY := cp.topHeight + PIPE_GAP / 2
  [b.y / CANVAS_HEIGHT,
   (b.velocity + 20) / 40,
   (cp.x + PIPE_WIDTH - b.x) / CANVAS_WIDTH,
   (b.y - gapCenterY) / CANVAS_HEIGHT + 1/2]

/-- The fitness formula of the source: `distance + score * 5000`. -/
def fitnessOf (distance : ℚ) (score : ℕ) : ℚ :=
  distance + score * SCORE_WEIGHT

/-- One pipe-collision test (the body of the `for (const pipe of ...)` loop):
horizontal overlap and vertical extent outside the gap. -/
def pipeHit (b : Bird) (p : Pipe) : Bool :=
  (decide (b.x + BIRD_RADIUS > p.x) && decide (b.x - BIRD_RADIUS < p.x + PIPE_WIDTH)) &&
  (decide (b.y - BIRD_RADIUS < p.topHeight) ||
   decide (b.y + BIRD_RADIUS > p.topHeight + PIPE_GAP))

/-- The pipe-collision pass over all pipes: sets `alive := false` when some
pipe registers a hit (the loop may set it repeatedly; the result is the same). -/
def applyPipeCollision (pipes : List Pipe) (b : Bird) : Bird :=
  if pipes.any fun p => pipeHit b p then { b with alive := false } else b

/-- The per-bird body of the `update` loop, for a bird that is alive at the
start of the step.  `jumpDec` is the (mode-gated) AI decision for this bird.
The source mutates the record in place; the model names each intermediate
scalar once, in the source's order: distance accrual and fitness
recomputation, jump impulse when the network output exceeds `0.5`, gravity,
position update, ground collision on the post-physics `y` (kills), ceiling
clamp on the same `y` (clamps `y` and `velocity`, does not kill), then the
pipe-collision pass on the clamped position. -/
def updateAliveBird (jumpDec : Bool) (pipes : List Pipe) (b : Bird) : Bird :=
  let d := b.distance + PIPE_SPEED
  let v1 := (if jumpDec then JUMP_STRENGTH else b.velocity) + GRAVITY
  let y1 := b.y + v1
  let aliveGround := if y1 + BIRD_RADIUS ≥ CANVAS_HEIGHT - GROUND_HEIGHT then
      false else b.alive
  let y2 := if y1 - BIRD_RADIUS ≤ 0 then BIRD_RADIUS else y1
  let v2 := if y1 - BIRD_RADIUS ≤ 0 then 0 else v1
  applyPipeCollision pipes
    { x := b.x, y := y2, velocity := v2, score := b.score, distance := d,
      fitness := fitnessOf d b.score, alive := aliveGround }

/-- A `List.map` with the element's position, by structural recursion. -/
def mapIdxFrom (f : ℕ → α → β) (k : ℕ) : List α → List β
  | [] => []
  | a :: as => f k a :: mapIdxFrom f (k + 1) as

/-- The `birdsRef.current.forEach` pass of `update`: dead birds are skipped,
alive birds are advanced; the decision oracle is fed the bird's index and the
sensing inputs built from the shared closest pipe.  In player mode without
autopilot no decision is made. -/
def birdPhase (aiDecides : Bool) (o : StepOracle) (cp : Pipe)
    (pipes : List Pipe) (birds : List Bird) : List Bird :=
  mapIdxFrom
    (fun i b =>
      if b.alive then
        updateAliveBird (aiDecides && o.jump i (sensingInputs b cp)) pipes b
      else b)
    0 birds

/-- The pipe spawn check: the counter is incremented first; when it exceeds
`PIPE_SPAWN_RATE` a pipe is pushed at the right edge with the oracle's random
`topHeight` and the counter resets. -/
def spawnPhase (spawnTop : ℚ) (pipes : List Pipe) (counter : ℕ) :
    List Pipe × ℕ :=
  let c := counter + 1
  if PIPE_SPAWN_RATE < c then
    (pipes ++ [{ x := CANVAS_WIDTH, topHeight := spawnTop, passed := false }], 0)
  else (pipes, c)

/-- The "Move Pipes & Score" loop: every pipe moves left by `PIPE_SPEED`;
pipes fully off the left edge are removed (`continue`, skipping the passage
check); a kept pipe that is not yet `passed` and whose trailing edge is now
strictly left of the reference x becomes `passed`, contributing one score
increment.  Returns the surviving pipes (order preserved) and the number of
passage events of this step. -/
def pipesPhase (refX : ℚ) : List Pipe → List Pipe × ℕ
  | [] => ([], 0)
  | p :: rest =>
    let done := pipesPhase refX rest
    let q : Pipe := { p with x := p.x - PIPE_SPEED }
    if q.x + PIPE_WIDTH < 0 then done
    else if !q.passed && decide (refX > q.x + PIPE_WIDTH) then
      ({ q with passed := true } :: done.1, done.2 + 1)
    else (q :: done.1, done.2)

/-- Score update for the passage events: every currently-alive bird's score
is incremented once per event. -/
def scorePhase (passes : ℕ) (birds : List Bird) : List Bird :=
  birds.map fun b => if b.alive then { b with score := b.score + passes } else b

/-- Extinction test (`living === 0` on the post-physics population). -/
def extinct (birds : List Bird) : Bool :=
  birds.all fun b => !b.alive

/-- The dynamic fields of a freshly created bird (`createPlayerBird` /
`createAIBirds` both use this spawn state). -/
def spawnBird : Bird where
  x := CANVAS_WIDTH / 3
  y := CANVAS_HEIGHT / 2
  velocity := 0
  score := 0
  distance := 0
  fitness := 0
  alive := true

/-- The dynamic state after `nextGeneration` rebuilds the world: a fresh
population of `AI_POPULATION` birds, pipes cleared, spawn counter reset. -/
def rolloverWorld : World where
  birds := List.replicate AI_POPULATION spawnBird
  pipes := []
  spawnCounter := 0

/-- The gate `mode === 'AI' || (mode === 'PLAYER' && isAutopilot)`: whether the AI
decision is consulted this step. -/
def aiDecidesFlag (mode : GameMode) (autopilot : Bool) : Bool :=
  mode == GameMode.ai || (mode == GameMode.player && autopilot)

/-- The shared reference x position `birdsRef.current[0].x` (the default is
irrelevant: the step on an empty population never reads it). -/
def refXOf (s : World) : ℚ := (s.birds.headD spawnBird).x

/-- The whole per-bird pass of one `update` call on a state. -/
def birdPhaseOf (mode : GameMode) (autopilot : Bool) (o : StepOracle)
    (s : World) : List Bird :=
  birdPhase (aiDecidesFlag mode autopilot) o
    (closestPipeFor (refXOf s) s.pipes) s.pipes s.birds

/-- The world-update tail of `update` (pipe spawn, movement, passage scoring),
applied when neither exit branch was taken. -/
def worldAfterPipes (o : StepOracle) (s : World) (birds1 : List Bird) :
    World :=
  let sp := spawnPhase o.spawnTop s.pipes s.spawnCounter
  let pp := pipesPhase (refXOf s) sp.1
  { birds := scorePhase pp.2 birds1, pipes := pp.1, spawnCounter := sp.2 }

/-- One call of `update`.  `autopilot` is the player-mode autopilot flag.
In AI mode, extinction of the post-physics population triggers
`nextGeneration()` and returns (pipe logic skipped); in player mode, death of
bird 0 triggers `gameOver()` and returns.  On an (unreachable) empty
population the source would fault at the scoring line; the model returns the
state unchanged. -/
def step (mode : GameMode) (autopilot : Bool) (o : StepOracle) (s : World) :
    World :=
  if s.birds.isEmpty then s
  else
    let birds1 := birdPhaseOf mode autopilot o s
    if mode == GameMode.ai then
      if extinct birds1 then rolloverWorld
      else worldAfterPipes o s birds1
    else
      if (birds1.headD spawnBird).alive then worldAfterPipes o s birds1
      else { s with birds := birds1 }

/-! ## Reachability (AI training mode)

`resetGame('AI')` builds `createAIBirds(AI_POPULATION)` over an empty pipe
list with the spawn counter at 0; every tick of the loop then calls `update`.
The oracle of each step is arbitrary except that a spawned `topHeight` lies in
the valid random range `[minPipeH, maxPipeH] = [50, 300]`. -/

def initialAIWorld : World where
  birds := List.replicate AI_POPULATION spawnBird
  pipes := []
  spawnCounter := 0

/-- The random `topHeight` range of the spawn site:
`minPipeH = 50`, `maxPipeH = 600 - 100 - 150 - 50 = 300`. -/
def ValidOracle (o : StepOracle) : Prop :=
  50 ≤ o.spawnTop ∧ o.spawnTop ≤ 300

/-- States reachable in AI training mode. -/
inductive ReachableAI : World → Prop
  | init : ReachableAI initialAIWorld
  | step (s : World) (o : StepOracle) (hs : ReachableAI s) (ho : ValidOracle o) :
      ReachableAI (step GameMode.ai false o s)

/-! ## A concrete AI-mode run

A 207-step run of a 50-bird population witnessing the counterexample states.
Bird 0 hovers inside the first pipe's gap (it jumps whenever its height input
reaches `130/600`); bird 1 behaves the same until its distance-to-pipe input
drops to `1/10`, then free-falls, leaving the gap exactly at step 207 — the
very step at which the pipe is passed; the other 48 birds never jump and die
on the ground at step 25.  Each rule is a linear threshold on the sensing
inputs, realisable exactly by a single-hidden-node sigmoid network with
weights in the constructor's range. -/

def traceJump (i : ℕ) (inputs : List ℚ) : Bool :=
  if i == 0 then decide (inputs.getD 0 0 ≥ 13/60)
  else if i == 1 then
    decide (inputs.getD 0 0 ≥ 67/300) && decide (inputs.getD 2 0 > 1/10)
  else false

def traceOracle : StepOracle where
  jump := traceJump
  spawnTop := 50

def runTrace : ℕ → World
  | 0 => initialAIWorld
  | n + 1 => step GameMode.ai false traceOracle (runTrace n)

/-! ## The player-mode gravity run (zero obstacles, no jump input)

In player mode without autopilot, `update` makes no AI decision, and the
player's jump handler is never invoked, so the decision oracle is irrelevant.
`createPlayerBird` spawns the bird at the same dynamic state as `spawnBird`. -/

def noJumpOracle : StepOracle where
  jump := fun _ _ => false
  spawnTop := 50

def initialPlayerWorld : World where
  birds := [spawnBird]
  pipes := []
  spawnCounter := 0

def runPlayer : ℕ → World
  | 0 => initialPlayerWorld
  | n + 1 => step GameMode.player false noJumpOracle (runPlayer n)

/-! ## The generation functions (`createAIBirds`, `nextGeneration`,
`createPlayerBird`)

`AIBird` is the full record of the source (brain and colour included); the
dynamic fields match `Bird`. -/

structure AIBird where
  x : ℚ
  y : ℚ
  velocity : ℚ
  brain : NeuralNetwork
  fitness : ℚ
  score : ℕ
  distance : ℚ
  alive : Bool
  color : String
deriving DecidableEq

/-- The champion tag `'#FF0000'`. -/
def championColor : String := "#FF0000"

/-- A random population colour:
`hsla(${Math.random() * 360}, 70%, 50%, 0.6)`; `seed` is the rendering of the
random number. -/
def randomColor (seed : String) : String :=
  "hsla(" ++ seed ++ ", 70%, 50%, 0.6)"

/-- An `AIBird` at the spawn state with the given brain and colour. -/
def mkAIBird (brain : NeuralNetwork) (color : String) : AIBird where
  x := CANVAS_WIDTH / 3
  y := CANVAS_HEIGHT / 2
  velocity := 0
  brain := brain
  fitness := 0
  score := 0
  distance := 0
  alive := true
  color := color

/-- Oracle for the randomness of one `createAIBirds` call, per bird index:
colour seed, fresh-constructor weights, mutation offsets. -/
structure GenOracle where
  colorSeed : ℕ → String
  init : ℕ → InitOracle
  mutOf : ℕ → MutOracle

/-- Source `createAIBirds(population, bestBrains)`.  With parents present, bird `i`
clones parent `i % bestBrains.length`; bird `0` is kept pure and tagged as
champion, all others are mutated; without parents, every bird gets a fresh
random network.  (The `getD` default is never read: the index is reduced
modulo a positive length.) -/
def createAIBirds (o : GenOracle) (population : ℕ)
    (bestBrains : List NeuralNetwork) : List AIBird :=
  (List.range population).map fun i =>
    if 0 < bestBrains.length then
      let parentBrain :=
        bestBrains.getD (i % bestBrains.length) (newNetwork (o.init i) 4 6 1)
      if 0 < i then
        mkAIBird (mutateNetwork (o.mutOf i) (copyNetwork parentBrain))
          (randomColor (o.colorSeed i))
      else
        mkAIBird (copyNetwork parentBrain) championColor
    else
      mkAIBird (newNetwork (o.init i) 4 6 1) (randomColor (o.colorSeed i))

/-- The fitness-descending sort of `nextGeneration`
(`birds.sort((a, b) => b.fitness - a.fitness)`). -/
def sortByFitnessDesc (birds : List AIBird) : List AIBird :=
  birds.mergeSort fun a b => decide (b.fitness ≤ a.fitness)

/-- Source `nextGeneration()`: sort the exhausted population by fitness descending,
keep the top `5` brains as parents, and rebuild the population with
`createAIBirds`.  (Persisting `bestBrains[0]` and the UI-state resets are
side effects outside the model.) -/
def nextGeneration (o : GenOracle) (birds : List AIBird) : List AIBird :=
  let sorted := sortByFitnessDesc birds
  let bestBrains := (sorted.take 5).map AIBird.brain
  createAIBirds o AI_POPULATION bestBrains

/-- The outcome of reading and parsing the persisted model
(`localStorage.getItem('flappy-ai-model')` and `JSON.parse` are platform
facilities outside the repository; they are modelled at their boundary):
no stored item, a stored item on which `JSON.parse` throws (the `catch`
leaves `brain` undefined), or a parsed record. -/
inductive StoredModel where
  | absent
  | malformed
  | record (d : NetworkData)

/-- Source `createPlayerBird()`: deserialize the persisted controller when present
and well-formed, otherwise fall back to a fresh random `4/6/1` network
(`brain || new NeuralNetwork(4, 6, 1)`).  `oLoad` is the constructor
randomness inside `fromJSON`, `oFresh` the randomness of the fallback. -/
def createPlayerBird (stored : StoredModel) (oLoad oFresh : InitOracle) :
    AIBird :=
  let brain? : Option NeuralNetwork :=
    match stored with
    | StoredModel.record d => some (fromJSON oLoad d)
    | _ => none
  { x := CANVAS_WIDTH / 3
    y := CANVAS_HEIGHT / 2
    velocity := 0
    brain := brain?.getD (newNetwork oFresh 4 6 1)
    fitness := 0
    score := 0
    distance := 0
    alive := true
    color := "#FACC15" }

/-- The spec's selector for the sensing target, for comparison with the
source's `closestPipeFor`.  Modelled from the spec: "the first obstacle in
sequence whose trailing edge is still ahead of the reference agent's leading
edge" — the agent's leading (right) edge is `x + BIRD_RADIUS`. -/
def specClosestPipeFor (refX : ℚ) (pipes : List Pipe) : Pipe :=
  (pipes.find? fun p => decide (p.x + PIPE_WIDTH > refX + BIRD_RADIUS)).getD
    virtualPipe

/-- A concrete constructor-randomness oracle (all zeros), for witnesses. -/
def trivialInit : InitOracle where
  wIH := fun _ _ => 0
  wHO := fun _ _ => 0
  bH := fun _ => 0
  bO := fun _ => 0

/-- A concrete mutation oracle (all offsets zero), for witnesses. -/
def trivialMut : MutOracle where
  dIH := fun _ _ => 0
  dHO := fun _ _ => 0
  dbH := fun _ => 0
  dbO := fun _ => 0

/-- A concrete generation oracle, for witnesses. -/
def trivialGen : GenOracle where
  colorSeed := fun _ => "0"
  init := fun _ => trivialInit
  mutOf := fun _ => trivialMut

/-- A default `AIBird` (only ever used as an unread `getD` default). -/
def dummyAIBird : AIBird := mkAIBird (newNetwork trivialInit 4 6 1) "#FACC15"

/-- A concrete 5-bird exhausted population, for witnesses. -/
def fiveBirds : List AIBird := List.replicate 5 dummyAIBird

/-- The cross-step bookkeeping invariant of an AI-mode world.  `t` counts the
steps of the current generation, `P0` is the score every live agent held when
its fitness was last recomputed (the start of the current step), and `δ` is
the number of passage events of the current step (`score = P0 + δ` for live
agents, whose stored fitness still reflects `P0`).  Dead agents carry an
exact `fitness = distance + score * SCORE_WEIGHT`, scores at most `P0`, and
distances at most the shared accrual; and between any two agents a strictly
larger score implies a no-smaller distance. -/
def InvAt (t P0 δ : ℕ) (s : World) : Prop :=
  (∀ b ∈ s.birds, b.alive = true →
    b.distance = PIPE_SPEED * t ∧ b.score = P0 + δ ∧
    b.fitness = PIPE_SPEED * t + (P0 : ℚ) * SCORE_WEIGHT) ∧
  (∀ b ∈ s.birds, b.alive = false →
    b.fitness = b.distance + (b.score : ℚ) * SCORE_WEIGHT ∧
    b.distance ≤ PIPE_SPEED * t ∧ b.score ≤ P0) ∧
  (∀ b ∈ s.birds, ∀ c ∈ s.birds, c.score < b.score → c.distance ≤ b.distance)

def Inv (s : World) : Prop := ∃ t P0 δ, InvAt t P0 δ s

/-- The image of one pipe under the move/remove/pass pass. -/
def movedPipe (refX : ℚ) (p : Pipe) : Option Pipe :=
  if p.x - PIPE_SPEED + PIPE_WIDTH < 0 then none
  else some { x := p.x - PIPE_SPEED, topHeight := p.topHeight,
              passed := p.passed || decide (refX > p.x - PIPE_SPEED + PIPE_WIDTH) }

/-- A pipe transitions (newly becomes `passed`) this step iff it is kept, was
not yet `passed`, and the reference x now strictly exceeds its post-movement
trailing edge. -/
def pipeTransitions (refX : ℚ) (p : Pipe) : Bool :=
  !decide (p.x - PIPE_SPEED + PIPE_WIDTH < 0) && !p.passed &&
    decide (refX > p.x - PIPE_SPEED + PIPE_WIDTH)

/-! ## Helper lemmas -/

theorem mapIdxFrom_length (f : ℕ → α → β) (k : ℕ) (l : List α) :
    (mapIdxFrom f k l).length = l.length := by
  induction l generalizing k with
  | nil => rfl
  | cons a as ih => simpa [mapIdxFrom] using ih (k + 1)

theorem mapIdxFrom_getElem (f : ℕ → α → β) (k : ℕ) (l : List α) (i : ℕ)
    (h : i < l.length) (h' : i < (mapIdxFrom f k l).length) :
    (mapIdxFrom f k l)[i] = f (k + i) l[i] := by
  induction l generalizing k i with
  | nil => simp at h
  | cons a as ih =>
    cases i with
    | zero => simp [mapIdxFrom]
    | succ j =>
      have hj : j < as.length := by simpa using h
      have hj' : j < (mapIdxFrom f (k + 1) as).length := by
        simpa [mapIdxFrom_length] using hj
      simpa [mapIdxFrom, Nat.add_comm, Nat.add_assoc, Nat.add_left_comm] using
        ih (k + 1) j hj hj'

theorem mem_mapIdxFrom {f : ℕ → α → β} {k : ℕ} {l : List α} {b : β}
    (h : b ∈ mapIdxFrom f k l) : ∃ i a, a ∈ l ∧ b = f i a := by
  induction l generalizing k with
  | nil => simp [mapIdxFrom] at h
  | cons a as ih =>
    rcases (by simpa [mapIdxFrom] using h : b = f k a ∨ b ∈ mapIdxFrom f (k + 1) as) with
      h1 | h2
    · exact ⟨k, a, by simp, h1⟩
    · obtain ⟨i, a', ha', hb⟩ := ih h2
      exact ⟨i, a', by simp [ha'], hb⟩

theorem applyPipeCollision_x (ps : List Pipe) (b : Bird) :
    (applyPipeCollision ps b).x = b.x := by
  unfold applyPipeCollision; split <;> rfl

theorem applyPipeCollision_y (ps : List Pipe) (b : Bird) :
    (applyPipeCollision ps b).y = b.y := by
  unfold applyPipeCollision; split <;> rfl

theorem applyPipeCollision_score (ps : List Pipe) (b : Bird) :
    (applyPipeCollision ps b).score = b.score := by
  unfold applyPipeCollision; split <;> rfl

theorem applyPipeCollision_distance (ps : List Pipe) (b : Bird) :
    (applyPipeCollision ps b).distance = b.distance := by
  unfold applyPipeCollision; split <;> rfl

theorem applyPipeCollision_fitness (ps : List Pipe) (b : Bird) :
    (applyPipeCollision ps b).fitness = b.fitness := by
  unfold applyPipeCollision; split <;> rfl

theorem applyPipeCollision_alive_le (ps : List Pipe) (b : Bird)
    (h : (applyPipeCollision ps b).alive = true) : b.alive = true := by
  revert h; unfold applyPipeCollision; split
  · intro h; simp at h
  · exact id

theorem updateAliveBird_distance (j : Bool) (ps : List Pipe) (b : Bird) :
    (updateAliveBird j ps b).distance = b.distance + PIPE_SPEED := by
  simp [updateAliveBird, applyPipeCollision_distance]

theorem updateAliveBird_score (j : Bool) (ps : List Pipe) (b : Bird) :
    (updateAliveBird j ps b).score = b.score := by
  simp [updateAliveBird, applyPipeCollision_score]

theorem updateAliveBird_x (j : Bool) (ps : List Pipe) (b : Bird) :
    (updateAliveBird j ps b).x = b.x := by
  simp [updateAliveBird, applyPipeCollision_x]

theorem updateAliveBird_fitness (j : Bool) (ps : List Pipe) (b : Bird) :
    (updateAliveBird j ps b).fitness = fitnessOf (b.distance + PIPE_SPEED) b.score := by
  simp [updateAliveBird, applyPipeCollision_fitness]

/-- A bird still alive after its per-step update sits inside the vertical
band: the ceiling clamp forces `BIRD_RADIUS ≤ y`, and survival of the ground
check forces `y + BIRD_RADIUS < CANVAS_HEIGHT - GROUND_HEIGHT`. -/
theorem updateAliveBird_bounds (j : Bool) (ps : List Pipe) (b : Bird)
    (h : (updateAliveBird j ps b).alive = true) :
    BIRD_RADIUS ≤ (updateAliveBird j ps b).y ∧
    (updateAliveBird j ps b).y + BIRD_RADIUS < CANVAS_HEIGHT - GROUND_HEIGHT := by
  unfold updateAliveBird at h ⊢
  have hg := applyPipeCollision_alive_le _ _ h
  rw [applyPipeCollision_y]
  simp only at hg ⊢
  set v1 := (if j then JUMP_STRENGTH else b.velocity) + GRAVITY with hv1
  set y1 := b.y + v1 with hy1
  by_cases hground : y1 + BIRD_RADIUS ≥ CANVAS_HEIGHT - GROUND_HEIGHT
  · rw [if_pos hground] at hg; exact absurd hg (by simp)
  · rw [if_neg hground] at hg
    by_cases hceil : y1 - BIRD_RADIUS ≤ 0
    · rw [if_pos hceil]
      norm_num [BIRD_RADIUS, CANVAS_HEIGHT, GROUND_HEIGHT]
    · rw [if_neg hceil]
      push_neg at hground hceil
      exact ⟨by linarith, hground⟩

theorem scorePhase_alive (n : ℕ) (b : Bird) :
    ((if b.alive then { b with score := b.score + n } else b) : Bird).alive
      = b.alive := by
  split <;> rfl

/-- The kept branch structure of `step`: when the step does not hit an exit
branch, the result is `worldAfterPipes` on the bird-phase output. -/
theorem step_eq_worldAfterPipes (mode : GameMode) (autopilot : Bool)
    (o : StepOracle) (s : World) (hne : s.birds.isEmpty = false)
    (hroll : mode = GameMode.ai → extinct (birdPhaseOf mode autopilot o s) = false)
    (hover : mode = GameMode.player →
      ((birdPhaseOf mode autopilot o s).headD spawnBird).alive = true) :
    step mode autopilot o s = worldAfterPipes o s (birdPhaseOf mode autopilot o s) := by
  cases mode with
  | ai => simp [step, hne, hroll rfl]
  | player =>
    have h : ((birdPhaseOf GameMode.player autopilot o s).head?.getD
        spawnBird).alive = true := by simpa using hover rfl
    simp [step, hne, h]

/-! ## C4 — serialization round trip -/

/-- C4. For every controller `c` and every input vector, deserializing
`toJSON c` reproduces identical prediction outputs (for any activation
function, in particular the sigmoid; `o` is the constructor randomness inside
`fromJSON`, which is entirely overwritten). -/
theorem serialization_roundtrip_predict (o : InitOracle) (c : NeuralNetwork)
    (σ : ℚ → ℚ) (x : List ℚ) :
    predictWith σ (fromJSON o (toJSON c)) x = predictWith σ c x := by
  have h : fromJSON o (toJSON c) = c := by cases c; rfl
  rw [h]

/-! ## C9 — persisted-controller loading fallback -/

/-- C9. `createPlayerBird` is total over every loading outcome: an absent
or malformed stored record yields a fresh randomly initialised controller of
the canonical `4/6/1` topology; in every case the bird holds either the
deserialized controller or the fresh one, and is returned alive — no failure
propagates. -/
theorem player_bird_load_fallback (stored : StoredModel)
    (oLoad oFresh : InitOracle) :
    ((stored = StoredModel.absent ∨ stored = StoredModel.malformed) →
      (createPlayerBird stored oLoad oFresh).brain = newNetwork oFresh 4 6 1 ∧
      (createPlayerBird stored oLoad oFresh).brain.inputNodes = 4 ∧
      (createPlayerBird stored oLoad oFresh).brain.hiddenNodes = 6 ∧
      (createPlayerBird stored oLoad oFresh).brain.outputNodes = 1) ∧
    ((∃ d, stored = StoredModel.record d ∧
        (createPlayerBird stored oLoad oFresh).brain = fromJSON oLoad d) ∨
      (createPlayerBird stored oLoad oFresh).brain = newNetwork oFresh 4 6 1) ∧
    (createPlayerBird stored oLoad oFresh).alive = true := by
  cases stored with
  | absent => exact ⟨fun _ => ⟨rfl, rfl, rfl, rfl⟩, Or.inr rfl, rfl⟩
  | malformed => exact ⟨fun _ => ⟨rfl, rfl, rfl, rfl⟩, Or.inr rfl, rfl⟩
  | record d =>
    refine ⟨fun h => ?_, Or.inl ⟨d, rfl, rfl⟩, rfl⟩
    rcases h with h | h <;> exact absurd h (by simp)

/-- Witness for C9 at the concrete input `absent`. -/
theorem player_bird_load_fallback_witness :
    (createPlayerBird StoredModel.absent trivialInit trivialInit).brain =
      newNetwork trivialInit 4 6 1 :=
  ((player_bird_load_fallback StoredModel.absent trivialInit trivialInit).1
    (Or.inl rfl)).1

/-! ## C5 — pipe collision boundary -/

/-- C5. The per-step pipe check: a horizontally overlapping pipe registers
a hit exactly when the bird's vertical extent leaves the gap; an extent
inside the gap — boundary contact included — never registers a hit, whatever
the horizontal overlap; the collision pass kills an alive bird iff some pipe
registers a hit, so a bird inside every overlapped gap survives the pass. -/
theorem pipe_collision_boundary (b : Bird) (p : Pipe) (ps : List Pipe) :
    (pipeHit b p = true ↔
      (b.x + BIRD_RADIUS > p.x ∧ b.x - BIRD_RADIUS < p.x + PIPE_WIDTH) ∧
      (b.y - BIRD_RADIUS < p.topHeight ∨
        b.y + BIRD_RADIUS > p.topHeight + PIPE_GAP)) ∧
    (p.topHeight ≤ b.y - BIRD_RADIUS →
      b.y + BIRD_RADIUS ≤ p.topHeight + PIPE_GAP → pipeHit b p = false) ∧
    ((applyPipeCollision ps b).alive = true ↔
      b.alive = true ∧ ∀ q ∈ ps, pipeHit b q = false) ∧
    (b.alive = true →
      (∀ q ∈ ps, q.topHeight ≤ b.y - BIRD_RADIUS ∧
        b.y + BIRD_RADIUS ≤ q.topHeight + PIPE_GAP) →
      (applyPipeCollision ps b).alive = true) := by
  have hhit : ∀ q : Pipe, pipeHit b q = true ↔
      (b.x + BIRD_RADIUS > q.x ∧ b.x - BIRD_RADIUS < q.x + PIPE_WIDTH) ∧
      (b.y - BIRD_RADIUS < q.topHeight ∨
        b.y + BIRD_RADIUS > q.topHeight + PIPE_GAP) := by
    intro q
    simp [pipeHit]
  have hsafe : ∀ q : Pipe, q.topHeight ≤ b.y - BIRD_RADIUS →
      b.y + BIRD_RADIUS ≤ q.topHeight + PIPE_GAP → pipeHit b q = false := by
    intro q h1 h2
    have := hhit q
    rcases hb : pipeHit b q with _ | _
    · rfl
    · rcases (this.mp hb).2 with h | h
      · exact absurd h (not_lt.mpr h1)
      · exact absurd h (not_lt.mpr h2)
  have hpass : (applyPipeCollision ps b).alive = true ↔
      b.alive = true ∧ ∀ q ∈ ps, pipeHit b q = false := by
    unfold applyPipeCollision
    split
    · rename_i hany
      simp only [List.any_eq_true] at hany
      obtain ⟨q, hq, hhitq⟩ := hany
      constructor
      · intro h; simp at h
      · rintro ⟨-, hall⟩
        exact absurd (hall q hq) (by simp [hhitq])
    · rename_i hany
      simp only [List.any_eq_true, not_exists, not_and] at hany
      exact ⟨fun h => ⟨h, fun q hq => by simpa using hany q hq⟩, fun h => h.1⟩
  refine ⟨hhit p, hsafe p, hpass, fun halive hall => ?_⟩
  exact hpass.mpr ⟨halive, fun q hq => hsafe q (hall q hq).1 (hall q hq).2⟩

/-- Witness for C5 at a concrete bird and pipe: gap boundary exactly touched,
horizontal overlap present, no kill. -/
theorem pipe_collision_boundary_witness :
    pipeHit { x := 400/3, y := 66, velocity := 0, score := 0, distance := 0,
              fitness := 0, alive := true }
      { x := 130, topHeight := 50, passed := false } = false :=
  (pipe_collision_boundary _ _ []).2.1 (by norm_num [BIRD_RADIUS])
    (by norm_num [BIRD_RADIUS, PIPE_GAP])

/-! ## C10 — live agents stay in the vertical band -/

theorem scorePhase_mem {n : ℕ} {l : List Bird} {b : Bird}
    (h : b ∈ scorePhase n l) :
    ∃ b1 ∈ l, (b1.alive = true ∧ b = { b1 with score := b1.score + n }) ∨
      (b1.alive = false ∧ b = b1) := by
  obtain ⟨b1, hb1, rfl⟩ := List.mem_map.mp h
  rcases ha : b1.alive with _ | _
  · exact ⟨b1, hb1, Or.inr ⟨ha, by simp [ha]⟩⟩
  · exact ⟨b1, hb1, Or.inl ⟨ha, by simp [ha]⟩⟩

theorem birdPhaseOf_mem {mode : GameMode} {autopilot : Bool} {o : StepOracle}
    {s : World} {b1 : Bird} (h : b1 ∈ birdPhaseOf mode autopilot o s) :
    ∃ a ∈ s.birds, (a.alive = true ∧ ∃ j, b1 = updateAliveBird j s.pipes a) ∨
      (a.alive = false ∧ b1 = a) := by
  obtain ⟨i, a, ha, rfl⟩ := mem_mapIdxFrom h
  rcases hal : a.alive with _ | _
  · exact ⟨a, ha, Or.inr ⟨hal, by simp [hal]⟩⟩
  · refine ⟨a, ha, Or.inl ⟨hal, ⟨aiDecidesFlag mode autopilot &&
      o.jump i (sensingInputs a (closestPipeFor (refXOf s) s.pipes)), ?_⟩⟩⟩
    simp [hal]

/-- C10. After every simulation step, every agent whose `alive` flag is
true has `BIRD_RADIUS ≤ y` and `y + BIRD_RADIUS < CANVAS_HEIGHT -
GROUND_HEIGHT`, i.e. `16 ≤ y < 484`: the ceiling clamp forces the lower
bound without killing, and any violation of the upper bound kills, so a live
agent never rests outside the playable vertical band. -/
theorem live_bird_vertical_band (mode : GameMode) (autopilot : Bool)
    (o : StepOracle) (s : World) :
    ∀ b ∈ (step mode autopilot o s).birds, b.alive = true →
      (BIRD_RADIUS ≤ b.y ∧ b.y + BIRD_RADIUS < CANVAS_HEIGHT - GROUND_HEIGHT) ∧
      ((16 : ℚ) ≤ b.y ∧ b.y < 484) := by
  have hband : ∀ b1 ∈ birdPhaseOf mode autopilot o s, b1.alive = true →
      BIRD_RADIUS ≤ b1.y ∧ b1.y + BIRD_RADIUS < CANVAS_HEIGHT - GROUND_HEIGHT := by
    intro b1 hb1 halive
    obtain ⟨a, _, h | h⟩ := birdPhaseOf_mem hb1
    · obtain ⟨-, j, rfl⟩ := h
      exact updateAliveBird_bounds j _ a halive
    · exact absurd (h.2 ▸ halive) (by simp [h.1])
  have hnum : ∀ y : ℚ,
      (BIRD_RADIUS ≤ y ∧ y + BIRD_RADIUS < CANVAS_HEIGHT - GROUND_HEIGHT) →
      (16 : ℚ) ≤ y ∧ y < 484 := by
    intro y hy
    norm_num [BIRD_RADIUS, CANVAS_HEIGHT, GROUND_HEIGHT] at hy
    exact ⟨hy.1, by linarith [hy.2]⟩
  intro b hb halive
  by_cases hne : s.birds.isEmpty
  · rw [step, if_pos hne] at hb
    rw [List.isEmpty_iff] at hne
    rw [hne] at hb
    simp at hb
  · rw [step, if_neg hne] at hb
    rcases mode with _ | _
    · simp only [show (GameMode.player == GameMode.ai) = false from rfl,
        Bool.false_eq_true, if_false] at hb
      split at hb
      · obtain ⟨b1, hb1, h | h⟩ := scorePhase_mem hb
        · obtain ⟨hb1alive, rfl⟩ := h
          have := hband b1 hb1 hb1alive
          exact ⟨this, hnum _ this⟩
        · have := hband b1 hb1 (h.2 ▸ halive)
          exact h.2 ▸ ⟨this, hnum _ this⟩
      · have := hband b hb halive
        exact ⟨this, hnum _ this⟩
    · simp only [show (GameMode.ai == GameMode.ai) = true from rfl, if_true] at hb
      split at hb
      · have : b = spawnBird := List.eq_of_mem_replicate hb
        subst this
        refine ⟨⟨?_, ?_⟩, ?_, ?_⟩ <;>
          norm_num [spawnBird, BIRD_RADIUS, CANVAS_HEIGHT, GROUND_HEIGHT]
      · obtain ⟨b1, hb1, h | h⟩ := scorePhase_mem hb
        · obtain ⟨hb1alive, rfl⟩ := h
          have := hband b1 hb1 hb1alive
          exact ⟨this, hnum _ this⟩
        · have := hband b1 hb1 (h.2 ▸ halive)
          exact h.2 ▸ ⟨this, hnum _ this⟩

/-- Witness for C10: the single player bird after one gravity step is alive at
`y = 300.6`, inside the band. -/
theorem live_bird_vertical_band_witness :
    (BIRD_RADIUS ≤ ((step GameMode.player false noJumpOracle
          initialPlayerWorld).birds.getD 0 spawnBird).y ∧
      ((step GameMode.player false noJumpOracle
          initialPlayerWorld).birds.getD 0 spawnBird).y + BIRD_RADIUS <
        CANVAS_HEIGHT - GROUND_HEIGHT) ∧
    ((16 : ℚ) ≤ ((step GameMode.player false noJumpOracle
          initialPlayerWorld).birds.getD 0 spawnBird).y ∧
      ((step GameMode.player false noJumpOracle
          initialPlayerWorld).birds.getD 0 spawnBird).y < 484) :=
  live_bird_vertical_band GameMode.player false noJumpOracle initialPlayerWorld
    _ (by decide) (by decide)

/-! ## C7 — passage flag and scoring -/

theorem pipesPhase_eq (refX : ℚ) (ps : List Pipe) :
    pipesPhase refX ps =
      (ps.filterMap (movedPipe refX), ps.countP (pipeTransitions refX)) := by
  induction ps with
  | nil => rfl
  | cons p rest ih =>
    rw [pipesPhase, ih]
    by_cases hoff : p.x - PIPE_SPEED + PIPE_WIDTH < 0
    · simp [movedPipe, pipeTransitions, hoff, List.countP_cons]
    · by_cases hpassed : p.passed
      · simp [movedPipe, pipeTransitions, hoff, hpassed, List.countP_cons]
      · by_cases hpass : refX > p.x - PIPE_SPEED + PIPE_WIDTH
        · simp [movedPipe, pipeTransitions, hoff, hpassed, hpass,
            List.countP_cons]
        · simp [movedPipe, pipeTransitions, hoff, hpassed, hpass,
            List.countP_cons]

/-- C7. In one step's pipe pass: every surviving pipe is the leftward
move of a unique input pipe carrying `passed := old passed OR (refX strictly
exceeds the post-movement trailing edge)`, so a set flag never resets and the
transition happens exactly at the first step whose movement satisfies the
comparison; an already-`passed` pipe never transitions again; the number of
passage events equals the number of transitioning pipes; and the scoring pass
adds exactly that number to every currently-alive agent's score, leaving dead
agents untouched. -/
theorem passed_transition_scoring (refX : ℚ) (ps : List Pipe) (n : ℕ)
    (birds : List Bird) :
    (pipesPhase refX ps).1 = ps.filterMap (movedPipe refX) ∧
    (pipesPhase refX ps).2 = ps.countP (pipeTransitions refX) ∧
    (∀ p : Pipe, pipeTransitions refX p = true ↔
      ¬(p.x - PIPE_SPEED + PIPE_WIDTH < 0) ∧ p.passed = false ∧
        refX > p.x - PIPE_SPEED + PIPE_WIDTH) ∧
    (∀ p ∈ ps, p.passed = true → pipeTransitions refX p = false) ∧
    (∀ p ∈ ps, p.passed = true → ¬(p.x - PIPE_SPEED + PIPE_WIDTH < 0) →
      ({ x := p.x - PIPE_SPEED, topHeight := p.topHeight, passed := true } :
        Pipe) ∈ (pipesPhase refX ps).1) ∧
    (∀ i, i < birds.length →
      ((birds.getD i spawnBird).alive = true →
        (scorePhase n birds).getD i spawnBird =
          { birds.getD i spawnBird with
            score := (birds.getD i spawnBird).score + n }) ∧
      ((birds.getD i spawnBird).alive = false →
        (scorePhase n birds).getD i spawnBird = birds.getD i spawnBird)) := by
  refine ⟨(pipesPhase_eq refX ps).symm ▸ rfl, (pipesPhase_eq refX ps).symm ▸ rfl,
    ?_, ?_, ?_, ?_⟩
  · intro p
    simp [pipeTransitions, and_assoc]
  · intro p _ hp
    simp [pipeTransitions, hp]
  · intro p hp hpassed hkept
    rw [pipesPhase_eq]
    refine List.mem_filterMap.mpr ⟨p, hp, ?_⟩
    simp [movedPipe, hkept, hpassed]
  · intro i hi
    have hlen : i < (scorePhase n birds).length := by
      simpa [scorePhase] using hi
    have hgD : (scorePhase n birds).getD i spawnBird =
        (if (birds.getD i spawnBird).alive = true then
          { birds.getD i spawnBird with
            score := (birds.getD i spawnBird).score + n }
        else birds.getD i spawnBird) := by
      rw [List.getD_eq_getElem _ _ hlen, List.getD_eq_getElem _ _ hi]
      simp only [scorePhase, List.getElem_map]
    constructor
    · intro ha; rw [hgD, if_pos ha]
    · intro ha
      have hna : ¬(birds.getD i spawnBird).alive = true := by
        intro hc; rw [hc] at ha; exact Bool.noConfusion ha
      rw [hgD, if_neg hna]

/-- Witness for C7 at a concrete state: one pipe that transitions, one that is
already passed, an alive and a dead bird. -/
theorem passed_transition_scoring_witness :
    pipeTransitions (400/3) { x := 82, topHeight := 50, passed := false } =
      true ∧
    pipeTransitions (400/3) { x := 82, topHeight := 50, passed := true } =
      false ∧
    (scorePhase 1 [spawnBird]).getD 0 spawnBird =
      { spawnBird with score := spawnBird.score + 1 } := by
  refine ⟨?_, ?_, ?_⟩
  · exact (passed_transition_scoring (400/3)
      [{ x := 82, topHeight := 50, passed := false }] 1 []).2.2.1 _ |>.mpr
      (by norm_num [PIPE_SPEED, PIPE_WIDTH])
  · exact (passed_transition_scoring (400/3)
      [{ x := 82, topHeight := 50, passed := true }] 1 []).2.2.2.1 _
      (by simp) rfl
  · exact ((passed_transition_scoring (400/3) [] 1 [spawnBird]).2.2.2.2.2 0
      (by simp)).1 rfl

/-! ## C6 — AI sensing target selection -/

theorem find?_first (p : α → Bool) (l : List α) (h : ∃ a ∈ l, p a = true) :
    ∃ l1 a l2, l = l1 ++ a :: l2 ∧ l.find? p = some a ∧ p a = true ∧
      ∀ b ∈ l1, p b = false := by
  induction l with
  | nil => simp at h
  | cons x xs ih =>
    rcases px : p x with _ | _
    · obtain ⟨a, ha, hpa⟩ := h
      rcases List.mem_cons.mp ha with rfl | ha'
      · rw [px] at hpa; exact Bool.noConfusion hpa
      · obtain ⟨l1, a', l2, hdec, hfind, hpa', hprev⟩ := ih ⟨a, ha', hpa⟩
        exact ⟨x :: l1, a', l2, by rw [hdec]; rfl,
          by rw [List.find?_cons_of_neg _ (by simp [px]), hfind], hpa',
          fun b hb => by
            rcases List.mem_cons.mp hb with rfl | hb'
            · exact px
            · exact hprev b hb'⟩
    · exact ⟨[], x, xs, rfl, List.find?_cons_of_pos _ px, px, by simp⟩

/-- C6 (amended). At each step the sensing target is the first pipe in
sequence whose trailing edge is still to the right of the reference agent's
*left* edge `refX - BIRD_RADIUS`; when no pipe qualifies, the virtual pipe at
`x = CANVAS_WIDTH` with its gap centred vertically
(`topHeight = CANVAS_HEIGHT / 2 - PIPE_GAP / 2`) is used, and the sensing
input vector is always exactly 4 entries. -/
theorem closest_pipe_selection (refX : ℚ) (ps : List Pipe) :
    ((∀ p ∈ ps, ¬(p.x + PIPE_WIDTH > refX - BIRD_RADIUS)) →
      closestPipeFor refX ps = virtualPipe) ∧
    (virtualPipe.x = CANVAS_WIDTH ∧
      virtualPipe.topHeight = CANVAS_HEIGHT / 2 - PIPE_GAP / 2 ∧
      virtualPipe.topHeight + PIPE_GAP / 2 = CANVAS_HEIGHT / 2) ∧
    ((∃ p ∈ ps, p.x + PIPE_WIDTH > refX - BIRD_RADIUS) →
      ∃ l1 p l2, ps = l1 ++ p :: l2 ∧ closestPipeFor refX ps = p ∧
        p.x + PIPE_WIDTH > refX - BIRD_RADIUS ∧
        ∀ q ∈ l1, ¬(q.x + PIPE_WIDTH > refX - BIRD_RADIUS)) ∧
    (∀ (b : Bird) (cp : Pipe), (sensingInputs b cp).length = 4) := by
  refine ⟨?_, ⟨rfl, rfl, ?_⟩, ?_, fun b cp => rfl⟩
  · intro hall
    unfold closestPipeFor
    rw [List.find?_eq_none.mpr fun p hp => by simpa using hall p hp]
    rfl
  · show CANVAS_HEIGHT / 2 - PIPE_GAP / 2 + PIPE_GAP / 2 = CANVAS_HEIGHT / 2
    ring
  · intro hex
    obtain ⟨l1, p, l2, hdec, hfind, hp, hprev⟩ :=
      find?_first (fun p => decide (p.x + PIPE_WIDTH > refX - BIRD_RADIUS)) ps
        (by obtain ⟨p, hp, hc⟩ := hex; exact ⟨p, hp, by simpa using hc⟩)
    refine ⟨l1, p, l2, hdec, ?_, by simpa using hp,
      fun q hq => by simpa using hprev q hq⟩
    unfold closestPipeFor
    rw [hfind]
    rfl

/-- Witness for C6 at a concrete state with no qualifying pipe. -/
theorem closest_pipe_selection_witness :
    closestPipeFor (400/3) [{ x := -100, topHeight := 50, passed := false }] =
      virtualPipe :=
  (closest_pipe_selection (400/3)
    [{ x := -100, topHeight := 50, passed := false }]).1 (by decide)

/-! ## C3 — generation rollover, elitism, champion tag -/

theorem getD_range_map (f : ℕ → α) (n i : ℕ) (d : α) (hi : i < n) :
    ((List.range n).map f).getD i d = f i := by
  rw [List.getD_eq_getElem _ _ (by simpa using hi)]
  simp

theorem randomColor_ne_championColor (seed : String) :
    randomColor seed ≠ championColor := by
  intro h
  have h2 := congrArg String.data h
  simp [randomColor, championColor, String.data_append] at h2

/-- The fitness-descending sort is a permutation whose head dominates. -/
theorem sortByFitnessDesc_head (l : List AIBird) (hne : l ≠ []) :
    ∃ hd t, sortByFitnessDesc l = hd :: t ∧ hd ∈ l ∧
      ∀ b ∈ l, b.fitness ≤ hd.fitness := by
  have hperm : List.Perm (sortByFitnessDesc l) l := List.mergeSort_perm l _
  have hsorted : (sortByFitnessDesc l).Pairwise
      (fun a b => decide (b.fitness ≤ a.fitness) = true) := by
    have := @List.sorted_mergeSort AIBird
      (fun a b => decide (b.fitness ≤ a.fitness))
      (fun a b c hab hbc => by
        simp only [decide_eq_true_eq] at hab hbc ⊢
        exact le_trans hbc hab)
      (fun a b => by
        simp only [Bool.or_eq_true, decide_eq_true_eq]
        exact le_total b.fitness a.fitness)
      l
    simpa [sortByFitnessDesc] using this
  cases hs : sortByFitnessDesc l with
  | nil =>
    rw [hs] at hperm
    exact absurd (hperm.symm.eq_nil) hne
  | cons hd t =>
    rw [hs] at hperm hsorted
    refine ⟨hd, t, rfl, hperm.mem_iff.mp (by simp), fun b hb => ?_⟩
    rcases List.mem_cons.mp (hperm.symm.mem_iff.mp hb) with rfl | hbt
    · exact le_refl _
    · simpa using (List.pairwise_cons.mp hsorted).1 b hbt

/-- C3. At a generation rollover the new population has `AI_POPULATION`
agents; the parents are the top 5 of the fitness-descending sort; the agent
at position 0 — and only it — carries the champion tag, and its controller's
parameters are exactly those of a highest-fitness agent of the exhausted
population, with no mutation applied; every agent at position `i > 0` is the
mutated clone of parent `i % 5`. -/
theorem next_generation_elitism (o : GenOracle) (olds : List AIBird)
    (h5 : 5 ≤ olds.length) :
    (nextGeneration o olds).length = AI_POPULATION ∧
    (((sortByFitnessDesc olds).take 5).map AIBird.brain).length = 5 ∧
    (∃ best ∈ olds, (∀ b ∈ olds, b.fitness ≤ best.fitness) ∧
      ((nextGeneration o olds).getD 0 dummyAIBird).brain = best.brain ∧
      ((nextGeneration o olds).getD 0 dummyAIBird).color = championColor) ∧
    (∀ i, 0 < i → i < AI_POPULATION →
      ((nextGeneration o olds).getD i dummyAIBird).brain =
        mutateNetwork (o.mutOf i)
          ((((sortByFitnessDesc olds).take 5).map AIBird.brain).getD (i % 5)
            (newNetwork (o.init i) 4 6 1))) ∧
    (∀ i, i < AI_POPULATION →
      (((nextGeneration o olds).getD i dummyAIBird).color = championColor ↔
        i = 0)) := by
  have hne : olds ≠ [] := by
    intro h; rw [h] at h5; simp at h5
  obtain ⟨hd, t, hs, hdmem, hdmax⟩ := sortByFitnessDesc_head olds hne
  have hsortlen : (sortByFitnessDesc olds).length = olds.length :=
    (List.mergeSort_perm olds _).length_eq
  have hplen : (((sortByFitnessDesc olds).take 5).map AIBird.brain).length = 5 := by
    simp only [List.length_map, List.length_take, hsortlen]
    omega
  have hpos : 0 < (((sortByFitnessDesc olds).take 5).map AIBird.brain).length := by
    omega
  have hget : ∀ i, i < AI_POPULATION →
      (nextGeneration o olds).getD i dummyAIBird =
        (if 0 < (((sortByFitnessDesc olds).take 5).map AIBird.brain).length then
          let parentBrain := (((sortByFitnessDesc olds).take 5).map
              AIBird.brain).getD
            (i % (((sortByFitnessDesc olds).take 5).map AIBird.brain).length)
            (newNetwork (o.init i) 4 6 1)
          if 0 < i then
            mkAIBird (mutateNetwork (o.mutOf i) (copyNetwork parentBrain))
              (randomColor (o.colorSeed i))
          else mkAIBird (copyNetwork parentBrain) championColor
        else mkAIBird (newNetwork (o.init i) 4 6 1)
          (randomColor (o.colorSeed i))) := by
    intro i hi
    exact getD_range_map (fun i =>
      if 0 < (((sortByFitnessDesc olds).take 5).map AIBird.brain).length then
        let parentBrain := (((sortByFitnessDesc olds).take 5).map
            AIBird.brain).getD
          (i % (((sortByFitnessDesc olds).take 5).map AIBird.brain).length)
          (newNetwork (o.init i) 4 6 1)
        if 0 < i then
          mkAIBird (mutateNetwork (o.mutOf i) (copyNetwork parentBrain))
            (randomColor (o.colorSeed i))
        else mkAIBird (copyNetwork parentBrain) championColor
      else mkAIBird (newNetwork (o.init i) 4 6 1)
        (randomColor (o.colorSeed i))) AI_POPULATION i dummyAIBird hi
  refine ⟨by simp [nextGeneration, createAIBirds, AI_POPULATION], hplen,
    ⟨hd, hdmem, hdmax, ?_, ?_⟩, ?_, ?_⟩
  · rw [hget 0 (by norm_num [AI_POPULATION]), if_pos hpos]
    simp only [show ¬0 < 0 from by omega, if_false]
    rw [hplen]
    simp [mkAIBird, copyNetwork, hs]
  · rw [hget 0 (by norm_num [AI_POPULATION]), if_pos hpos]
    simp only [show ¬0 < 0 from by omega, if_false]
    rfl
  · intro i hi0 hi
    rw [hget i hi, if_pos hpos, hplen]
    simp only [hi0, if_pos]
    rfl
  · intro i hi
    constructor
    · intro hc
      by_contra hi0
      rw [hget i hi, if_pos hpos] at hc
      simp only [Nat.pos_of_ne_zero hi0, if_pos] at hc
      exact randomColor_ne_championColor (o.colorSeed i) hc
    · intro h0
      subst h0
      rw [hget 0 hi, if_pos hpos]
      simp only [show ¬0 < 0 from by omega, if_false]
      rfl

/-- Witness for C3 on a concrete 5-agent exhausted population. -/
theorem next_generation_elitism_witness :
    (nextGeneration trivialGen fiveBirds).length = AI_POPULATION :=
  (next_generation_elitism trivialGen fiveBirds (by simp [fiveBirds])).1

/-! ## The fitness bookkeeping invariant (C1/C2) -/

theorem updateAliveBird_alive_imp (j : Bool) (ps : List Pipe) (b : Bird)
    (h : (updateAliveBird j ps b).alive = true) : b.alive = true := by
  simp only [updateAliveBird] at h
  have hg := applyPipeCollision_alive_le _ _ h
  dsimp only at hg
  rcases hx : b.alive with _ | _
  · rw [hx] at hg
    simp at hg
  · rfl

/-- Classification of a bird after the physics pass and the scoring bump of
one non-exit step: it is an untouched dead bird, a survivor (distance
accrued, fitness recomputed from the start-of-step score, score bumped by the
step's `n` passage events), or a bird that died during the step (distance
accrued, fitness recomputed, score unchanged). -/
theorem scored_phase_cases {n : ℕ} {mode : GameMode} {autopilot : Bool}
    {o : StepOracle} {s : World} {b : Bird}
    (h : b ∈ scorePhase n (birdPhaseOf mode autopilot o s)) :
    ∃ a ∈ s.birds,
      (a.alive = false ∧ b = a) ∨
      (a.alive = true ∧ b.alive = true ∧
        b.distance = a.distance + PIPE_SPEED ∧ b.score = a.score + n ∧
        b.fitness = fitnessOf (a.distance + PIPE_SPEED) a.score) ∨
      (a.alive = true ∧ b.alive = false ∧
        b.distance = a.distance + PIPE_SPEED ∧ b.score = a.score ∧
        b.fitness = fitnessOf (a.distance + PIPE_SPEED) a.score) := by
  obtain ⟨b1, hb1, hcase⟩ := scorePhase_mem h
  obtain ⟨a, ha, hcase1⟩ := birdPhaseOf_mem hb1
  rcases hcase1 with ⟨haal, j, rfl⟩ | ⟨haal, rfl⟩
  · rcases hcase with ⟨hb1al, rfl⟩ | ⟨hb1al, rfl⟩
    · refine ⟨a, ha, Or.inr (Or.inl ⟨haal, by simpa using hb1al,
        by simp [updateAliveBird_distance], by simp [updateAliveBird_score],
        by simp [updateAliveBird_fitness]⟩)⟩
    · exact ⟨a, ha, Or.inr (Or.inr ⟨haal, hb1al,
        updateAliveBird_distance j s.pipes a, updateAliveBird_score j s.pipes a,
        updateAliveBird_fitness j s.pipes a⟩)⟩
  · rcases hcase with ⟨hb1al, rfl⟩ | ⟨hb1al, rfl⟩
    · exact absurd hb1al (by simp [haal])
    · exact ⟨b, ha, Or.inl ⟨haal, rfl⟩⟩

theorem inv_spawn_population (n : ℕ) : InvAt 0 0 0
    { birds := List.replicate n spawnBird, pipes := [], spawnCounter := 0 } := by
  refine ⟨?_, ?_, ?_⟩
  · intro b hb _
    have hbe := List.eq_of_mem_replicate hb
    subst hbe
    norm_num [spawnBird]
  · intro b hb hdead
    have hbe := List.eq_of_mem_replicate hb
    subst hbe
    exact absurd hdead (by norm_num [spawnBird])
  · intro b hb c hc hlt
    have hbe := List.eq_of_mem_replicate hb
    have hce := List.eq_of_mem_replicate hc
    subst hbe; subst hce; simp at hlt

theorem inv_step (o : StepOracle) (s : World) (h : Inv s) :
    Inv (step GameMode.ai false o s) := by
  obtain ⟨t, P0, δ, h1, h2, h3⟩ := h
  cases hne : s.birds.isEmpty with
  | true =>
    have hstep : step GameMode.ai false o s = s := by simp [step, hne]
    rw [hstep]
    exact ⟨t, P0, δ, h1, h2, h3⟩
  | false =>
    cases hext : extinct (birdPhaseOf GameMode.ai false o s) with
    | true =>
      have hstep : step GameMode.ai false o s = rolloverWorld := by
        simp [step, hne, hext]
      rw [hstep]
      exact ⟨0, 0, 0, inv_spawn_population AI_POPULATION⟩
    | false =>
      rw [step_eq_worldAfterPipes GameMode.ai false o s hne (fun _ => hext)
        (fun hp => GameMode.noConfusion hp)]
      set n := (pipesPhase (refXOf s)
        (spawnPhase o.spawnTop s.pipes s.spawnCounter).1).2 with hn
      have hwb : (worldAfterPipes o s (birdPhaseOf GameMode.ai false o s)).birds
          = scorePhase n (birdPhaseOf GameMode.ai false o s) := rfl
      have hW : (0 : ℚ) < SCORE_WEIGHT := by norm_num [SCORE_WEIGHT]
      refine ⟨t + 1, P0 + δ, n, ?_, ?_, ?_⟩
      · intro b hb halive
        rw [hwb] at hb
        obtain ⟨a, ha, hcase⟩ := scored_phase_cases hb
        rcases hcase with ⟨had, rfl⟩ | ⟨haal, hbal, hd, hsc, hf⟩ |
          ⟨haal, hbal, hd, hsc, hf⟩
        · rw [halive] at had; exact Bool.noConfusion had
        · obtain ⟨hda, hsa, -⟩ := h1 a ha haal
          refine ⟨?_, ?_, ?_⟩
          · rw [hd, hda]; push_cast; ring
          · rw [hsc, hsa]
          · rw [hf, hda]
            simp only [fitnessOf, hsa]
            push_cast; ring
        · rw [halive] at hbal; exact Bool.noConfusion hbal
      · intro b hb hdead
        rw [hwb] at hb
        obtain ⟨a, ha, hcase⟩ := scored_phase_cases hb
        rcases hcase with ⟨had, rfl⟩ | ⟨haal, hbal, hd, hsc, hf⟩ |
          ⟨haal, hbal, hd, hsc, hf⟩
        · obtain ⟨hf, hdle, hsle⟩ := h2 _ ha had
          refine ⟨hf, le_trans hdle ?_, le_trans hsle (by omega)⟩
          push_cast
          norm_num [PIPE_SPEED]
        · rw [hdead] at hbal; exact Bool.noConfusion hbal
        · obtain ⟨hda, hsa, -⟩ := h1 a ha haal
          refine ⟨?_, ?_, ?_⟩
          · rw [hf, hd, hsc]; simp [fitnessOf]
          · rw [hd, hda]; push_cast; ring_nf; exact le_refl _
          · rw [hsc, hsa]
      · intro b hb c hc hlt
        rw [hwb] at hb hc
        obtain ⟨a, ha, hcb⟩ := scored_phase_cases hb
        obtain ⟨a', ha', hcc⟩ := scored_phase_cases hc
        have hcdist : c.distance ≤ PIPE_SPEED * t + PIPE_SPEED := by
          rcases hcc with ⟨had, rfl⟩ | ⟨haal, -, hd, -, -⟩ | ⟨haal, -, hd, -, -⟩
          · have := (h2 _ ha' had).2.1
            have hps : (0 : ℚ) ≤ PIPE_SPEED := by norm_num [PIPE_SPEED]
            linarith
          · rw [hd, (h1 _ ha' haal).1]
          · rw [hd, (h1 _ ha' haal).1]
        rcases hcb with ⟨had, rfl⟩ | ⟨haal, -, hd, -, -⟩ | ⟨haal, -, hd, -, -⟩
        · -- b is an untouched dead bird: a lower-scoring c must be untouched too
          have hbs : b.score ≤ P0 := (h2 _ ha had).2.2
          rcases hcc with ⟨had', rfl⟩ | ⟨haal', -, -, hsc', -⟩ |
            ⟨haal', -, -, hsc', -⟩
          · exact h3 _ ha _ ha' hlt
          · rw [hsc', (h1 _ ha' haal').2.1] at hlt; omega
          · rw [hsc', (h1 _ ha' haal').2.1] at hlt; omega
        · rw [hd, (h1 _ ha haal).1]; exact hcdist
        · rw [hd, (h1 _ ha haal).1]; exact hcdist

theorem reachable_inv (s : World) (h : ReachableAI s) : Inv s := by
  induction h with
  | init => exact ⟨0, 0, 0, inv_spawn_population AI_POPULATION⟩
  | step s o hs ho ih => exact inv_step o s ih

/-! ## C2 — fitness ranking across agents -/

/-- C2 (amended). In every reachable AI-mode state, for agents of the
population: with equal scores, strictly greater distance gives strictly
greater fitness; with different scores, the higher-scoring agent's fitness is
at least the other's, and strictly greater whenever both agents are dead
(equality is possible only in the transient step in which the lower-scoring
agent has just died while the survivor's stored fitness still predates its
newest point). -/
theorem fitness_ranking (s : World) (hs : ReachableAI s) :
    ∀ b ∈ s.birds, ∀ c ∈ s.birds,
      (b.score = c.score → c.distance < b.distance → c.fitness < b.fitness) ∧
      (c.score < b.score → c.fitness ≤ b.fitness) ∧
      (c.score < b.score → b.alive = false → c.alive = false →
        c.fitness < b.fitness) := by
  obtain ⟨t, P0, δ, h1, h2, h3⟩ := reachable_inv s hs
  have hW : (0 : ℚ) < SCORE_WEIGHT := by norm_num [SCORE_WEIGHT]
  intro b hb c hc
  refine ⟨?_, ?_, ?_⟩
  · intro hsceq hdlt
    rcases hba : b.alive with _ | _
    · rcases hca : c.alive with _ | _
      · -- both dead: exact fitness formulas, equal scores
        obtain ⟨hfb, -, -⟩ := h2 _ hb hba
        obtain ⟨hfc, -, -⟩ := h2 _ hc hca
        have : (c.score : ℚ) = b.score := by exact_mod_cast hsceq.symm
        rw [hfb, hfc, this]
        linarith
      · -- b dead, c alive: c has the maximal distance, contradiction
        obtain ⟨hdc, -, -⟩ := h1 _ hc hca
        obtain ⟨-, hdb, -⟩ := h2 _ hb hba
        rw [hdc] at hdlt
        linarith
    · rcases hca : c.alive with _ | _
      · -- b alive, c dead with equal score: δ = 0 and the formulas agree
        obtain ⟨hdb, hsb, hfb⟩ := h1 _ hb hba
        obtain ⟨hfc, -, hsc⟩ := h2 _ hc hca
        have hδ : δ = 0 ∧ c.score = P0 := by omega
        have hcast : (c.score : ℚ) = P0 := by exact_mod_cast hδ.2
        rw [hfb, hfc, hcast]
        rw [hdb] at hdlt
        linarith
      · -- both alive: distances equal, contradiction
        obtain ⟨hdb, -, -⟩ := h1 _ hb hba
        obtain ⟨hdc, -, -⟩ := h1 _ hc hca
        rw [hdb, hdc] at hdlt
        linarith
  · intro hlt
    rcases hba : b.alive with _ | _
    · rcases hca : c.alive with _ | _
      · -- both dead
        obtain ⟨hfb, -, -⟩ := h2 _ hb hba
        obtain ⟨hfc, -, -⟩ := h2 _ hc hca
        have hdle := h3 _ hb _ hc hlt
        have hsle : (c.score : ℚ) ≤ b.score := by exact_mod_cast le_of_lt hlt
        have : (c.score : ℚ) * SCORE_WEIGHT ≤ (b.score : ℚ) * SCORE_WEIGHT :=
          mul_le_mul_of_nonneg_right hsle (le_of_lt hW)
        rw [hfb, hfc]
        linarith
      · -- b dead, c alive: impossible score ordering
        obtain ⟨-, hsc, -⟩ := h1 _ hc hca
        obtain ⟨-, -, hsb⟩ := h2 _ hb hba
        omega
    · -- b alive: its fitness dominates every dead agent's
      rcases hca : c.alive with _ | _
      · obtain ⟨hdb, hsb, hfb⟩ := h1 _ hb hba
        obtain ⟨hfc, hdc, hsc⟩ := h2 _ hc hca
        have hsle : (c.score : ℚ) ≤ P0 := by exact_mod_cast hsc
        have : (c.score : ℚ) * SCORE_WEIGHT ≤ (P0 : ℚ) * SCORE_WEIGHT :=
          mul_le_mul_of_nonneg_right hsle (le_of_lt hW)
        rw [hfb, hfc]
        linarith
      · obtain ⟨-, hsb, -⟩ := h1 _ hb hba
        obtain ⟨-, hsc, -⟩ := h1 _ hc hca
        omega
  · intro hlt hba hca
    obtain ⟨hfb, -, -⟩ := h2 _ hb hba
    obtain ⟨hfc, -, -⟩ := h2 _ hc hca
    have hdle := h3 _ hb _ hc hlt
    have hslt : (c.score : ℚ) < b.score := by exact_mod_cast hlt
    have : (c.score : ℚ) * SCORE_WEIGHT < (b.score : ℚ) * SCORE_WEIGHT :=
      mul_lt_mul_of_pos_right hslt hW
    rw [hfb, hfc]
    linarith

/-! ## C1 — the fitness identity at the end of a step -/

theorem birdPhaseOf_length (mode : GameMode) (autopilot : Bool)
    (o : StepOracle) (s : World) :
    (birdPhaseOf mode autopilot o s).length = s.birds.length := by
  simp [birdPhaseOf, birdPhase, mapIdxFrom_length]

theorem birdPhaseOf_getD (mode : GameMode) (autopilot : Bool) (o : StepOracle)
    (s : World) (i : ℕ) (hi : i < s.birds.length) :
    (birdPhaseOf mode autopilot o s).getD i spawnBird =
      (if (s.birds.getD i spawnBird).alive = true then
        updateAliveBird (aiDecidesFlag mode autopilot &&
          o.jump i (sensingInputs (s.birds.getD i spawnBird)
            (closestPipeFor (refXOf s) s.pipes))) s.pipes
          (s.birds.getD i spawnBird)
      else s.birds.getD i spawnBird) := by
  have h1 : i < (birdPhaseOf mode autopilot o s).length := by
    rw [birdPhaseOf_length]; exact hi
  rw [List.getD_eq_getElem _ _ h1]
  simp only [List.getD_eq_getElem _ _ hi]
  simp only [birdPhaseOf, birdPhase]
  rw [mapIdxFrom_getElem _ 0 s.birds i hi (by rwa [mapIdxFrom_length])]
  simp

theorem scorePhase_getD (n : ℕ) (l : List Bird) (i : ℕ) (hi : i < l.length) :
    (scorePhase n l).getD i spawnBird =
      (if (l.getD i spawnBird).alive = true then
        { l.getD i spawnBird with score := (l.getD i spawnBird).score + n }
      else l.getD i spawnBird) := by
  have hlen : i < (scorePhase n l).length := by simpa [scorePhase] using hi
  rw [List.getD_eq_getElem _ _ hlen]
  simp only [List.getD_eq_getElem _ _ hi]
  simp only [scorePhase, List.getElem_map]

/-- C1 (amended). At the end of every simulation step that does not roll
the generation over, an agent that was alive at the start of the step has
`fitness = fitnessOf distance score₀` where `distance` is its end-of-step
distance and `score₀` the score it held at the start of the step (the step's
fitness computation at the top of the per-bird pass reads the score before
any passage increment; on steps without a passage event this is the claimed
`fitness = distance + score * 5000`).  Moreover, for fitness values obeying
the formula, an agent with score 0 whose distance is within `SCORE_WEIGHT`
of a scoring agent's distance can never have strictly higher fitness. -/
theorem fitness_from_start_score (mode : GameMode) (autopilot : Bool)
    (o : StepOracle) (s : World) (i : ℕ) (hi : i < s.birds.length)
    (halive : (s.birds.getD i spawnBird).alive = true)
    (hnoroll : mode = GameMode.ai →
      extinct (birdPhaseOf mode autopilot o s) = false) :
    (((step mode autopilot o s).birds.getD i spawnBird).fitness =
      fitnessOf (((step mode autopilot o s).birds.getD i spawnBird).distance)
        ((s.birds.getD i spawnBird).score)) ∧
    (∀ dA dB : ℚ, ∀ sB : ℕ, 1 ≤ sB → dA ≤ dB + SCORE_WEIGHT →
      fitnessOf dA 0 ≤ fitnessOf dB sB) := by
  constructor
  · have hne : s.birds.isEmpty = false := by
      cases hb : s.birds with
      | nil => rw [hb] at hi; simp at hi
      | cons x xs => rfl
    have hphase : (birdPhaseOf mode autopilot o s).getD i spawnBird =
        updateAliveBird (aiDecidesFlag mode autopilot &&
          o.jump i (sensingInputs (s.birds.getD i spawnBird)
            (closestPipeFor (refXOf s) s.pipes))) s.pipes
          (s.birds.getD i spawnBird) := by
      rw [birdPhaseOf_getD mode autopilot o s i hi, if_pos halive]
    have hilen : i < (birdPhaseOf mode autopilot o s).length := by
      rw [birdPhaseOf_length]; exact hi
    have hkey : ∀ m : ℕ,
        ((scorePhase m (birdPhaseOf mode autopilot o s)).getD i
          spawnBird).fitness =
        fitnessOf (((scorePhase m (birdPhaseOf mode autopilot o s)).getD i
          spawnBird).distance) ((s.birds.getD i spawnBird).score) := by
      intro m
      rw [scorePhase_getD m _ i hilen, hphase]
      split
      · simp [updateAliveBird_fitness, updateAliveBird_distance]
      · simp [updateAliveBird_fitness, updateAliveBird_distance]
    cases mode with
    | ai =>
      rw [step_eq_worldAfterPipes GameMode.ai autopilot o s hne
        (fun _ => hnoroll rfl) (fun hp => GameMode.noConfusion hp)]
      exact hkey _
    | player =>
      cases hdead : ((birdPhaseOf GameMode.player autopilot o s).headD
          spawnBird).alive with
      | true =>
        rw [step_eq_worldAfterPipes GameMode.player autopilot o s hne
          (fun hp => GameMode.noConfusion hp) (fun _ => hdead)]
        exact hkey _
      | false =>
        have hstep : step GameMode.player autopilot o s =
            { s with birds := birdPhaseOf GameMode.player autopilot o s } := by
          have h : ((birdPhaseOf GameMode.player autopilot o s).head?.getD
              spawnBird).alive = false := by simpa using hdead
          simp [step, hne, h]
        rw [hstep]
        show ((birdPhaseOf GameMode.player autopilot o s).getD i
            spawnBird).fitness = _
        rw [hphase]
        simp [updateAliveBird_fitness, updateAliveBird_distance]
  · intro dA dB sB hsB hle
    have hcast : (1 : ℚ) ≤ (sB : ℚ) := by exact_mod_cast hsB
    have hW : (0 : ℚ) < SCORE_WEIGHT := by norm_num [SCORE_WEIGHT]
    have : SCORE_WEIGHT ≤ (sB : ℚ) * SCORE_WEIGHT := by nlinarith
    simp only [fitnessOf]
    push_cast
    linarith

/-! ## The concrete run: reachability and counterexamples -/

theorem reachable_run (n : ℕ) : ReachableAI (runTrace n) := by
  induction n with
  | zero => exact ReachableAI.init
  | succ k ih =>
    exact ReachableAI.step _ traceOracle ih
      ⟨by norm_num [traceOracle], by norm_num [traceOracle]⟩

set_option maxRecDepth 40000 in
/-- C1 (counterexample). In the reachable state after 206 steps, agent 0
is alive; during step 207 the first pipe is passed, so at the end of that
step the agent's stored fitness (computed before the score increment) is
*not* `distance + score * 5000`: it equals `621`, not `621 + 5000`. -/
theorem fitness_identity_cex :
    ReachableAI (runTrace 206) ∧
    ((runTrace 206).birds.getD 0 spawnBird).alive = true ∧
    ((step GameMode.ai false traceOracle (runTrace 206)).birds.getD 0
        spawnBird).fitness ≠
      fitnessOf
        (((step GameMode.ai false traceOracle (runTrace 206)).birds.getD 0
          spawnBird).distance)
        (((step GameMode.ai false traceOracle (runTrace 206)).birds.getD 0
          spawnBird).score) :=
  ⟨reachable_run 206, by decide, by decide⟩

set_option maxRecDepth 40000 in
/-- C2 (counterexample). In the reachable state after 207 steps, agent 0
(score 1, alive) and agent 1 (score 0, died during the passage step with the
same accrued distance 621) have *equal* fitness 621, so the higher-scoring
agent does not have strictly higher fitness. -/
theorem fitness_ranking_cex :
    ReachableAI (runTrace 207) ∧
    ((runTrace 207).birds.getD 1 spawnBird).score <
      ((runTrace 207).birds.getD 0 spawnBird).score ∧
    ((runTrace 207).birds.getD 1 spawnBird).fitness =
      ((runTrace 207).birds.getD 0 spawnBird).fitness :=
  ⟨reachable_run 207, by decide, by decide⟩

set_option maxRecDepth 40000 in
/-- C6 (counterexample). In the reachable state after 207 steps the
source's selector still targets the just-passed first pipe (trailing edge at
`131 > refX - BIRD_RADIUS = 117.33`), while the spec's wording ("still ahead
of the agent's leading edge", `refX + BIRD_RADIUS = 149.33`) would select the
second pipe: the two selectors disagree on a reachable state. -/
theorem closest_pipe_cex :
    ReachableAI (runTrace 207) ∧
    closestPipeFor (refXOf (runTrace 207)) (runTrace 207).pipes ≠
      specClosestPipeFor (refXOf (runTrace 207)) (runTrace 207).pipes :=
  ⟨reachable_run 207, by decide⟩

/-- Witness for C2 at the initial population (both agents the spawn agent). -/
theorem fitness_ranking_witness :
    (spawnBird.score = spawnBird.score → spawnBird.distance <
      spawnBird.distance → spawnBird.fitness < spawnBird.fitness) ∧
    (spawnBird.score < spawnBird.score →
      spawnBird.fitness ≤ spawnBird.fitness) ∧
    (spawnBird.score < spawnBird.score → spawnBird.alive = false →
      spawnBird.alive = false → spawnBird.fitness < spawnBird.fitness) :=
  fitness_ranking initialAIWorld ReachableAI.init spawnBird (by decide)
    spawnBird (by decide)

/-- Witness for C1 on a concrete player-mode step. -/
theorem fitness_from_start_score_witness :
    ((step GameMode.player false noJumpOracle initialPlayerWorld).birds.getD 0
        spawnBird).fitness =
      fitnessOf
        (((step GameMode.player false noJumpOracle
          initialPlayerWorld).birds.getD 0 spawnBird).distance)
        ((initialPlayerWorld.birds.getD 0 spawnBird).score) :=
  (fitness_from_start_score GameMode.player false noJumpOracle
    initialPlayerWorld 0 (by decide) (by decide)
    (fun hp => GameMode.noConfusion hp)).1

/-! ## C8 — the ten-step gravity scenario -/

/-- C8. A single player-mode agent from the spawn state, with no jump
input: after 10 steps no obstacle has spawned, the velocity is exactly
`10 × GRAVITY = 6`, and `y` strictly increases at every one of the ten
steps. -/
theorem gravity_ten_steps :
    (runPlayer 10).pipes = [] ∧
    ((runPlayer 10).birds.getD 0 spawnBird).velocity = 10 * GRAVITY ∧
    ((runPlayer 10).birds.getD 0 spawnBird).velocity = 6 ∧
    (∀ k, k < 10 → ((runPlayer k).birds.getD 0 spawnBird).y <
      ((runPlayer (k + 1)).birds.getD 0 spawnBird).y) :=
  ⟨by decide, by decide, by decide, by decide⟩

/-- Witness for C8 at the concrete step `3 → 4`. -/
theorem gravity_ten_steps_witness :
    ((runPlayer 3).birds.getD 0 spawnBird).y <
      ((runPlayer 4).birds.getD 0 spawnBird).y :=
  gravity_ten_steps.2.2.2 3 (by norm_num)

end Flappy
